import Mathlib

/-!
Shallow embedding of the nocloud-metadata-server configuration engine
(`config.go`): the YAML document model and template merge, route-rule
compilation and validation (`loadConfig`), request routing
(`config.ServeHTTP` / `serverConfig.Match`), dispatch on the trailing
path segment (`serverConfig.ServeHTTP`), and metadata rendering
(`instanceConfig.RenderMetaData` / `genSuffix`).

Machine integers are modelled as `Int`/`Nat`; the cryptographically
secure random source is modelled as an explicit oracle
`Nat → Option (List Nat)` (the number of bytes requested mapped to the
bytes read, `none` modelling a read failure); fallible Go functions
return `Except String`.
-/

set_option maxHeartbeats 1000000

namespace NoCloud

/-- A structured document value, as produced by the generic YAML
deserializer: scalars, sequences, and mappings.  Mappings
(`map[string]any` in the source) are modelled as association lists;
mapping keys are unique in any document produced by the deserializer. -/
inductive Value where
  | str : String → Value
  | int : Int → Value
  | bool : Bool → Value
  | seq : List Value → Value
  | map : List (String × Value) → Value
deriving Repr

/-- Go map read `m[k]`: the value stored at key `k`, if any. -/
def lookupKey (k : String) : List (String × Value) → Option Value
  | [] => none
  | (k', v) :: rest => if k' = k then some v else lookupKey k rest

/-- Go map write `m[k] = v`: replace the binding of `k`, or add one. -/
def setKey (k : String) (v : Value) : List (String × Value) → List (String × Value)
  | [] => [(k, v)]
  | (k', v') :: rest => if k' = k then (k, v) :: rest else (k', v') :: setKey k v rest

/-- Modelled from the spec: the Template Merge Engine (the repository
delegates it to the `koanf/maps` dependency, whose code is not under
`src/`).  `mergeMaps base overlay` works on a copy of `base` (values
are immutable here, so the deep copy performed by the source is the
identity): for each key of `overlay`, if both the value in the copy
and the overlay value are mappings they are merged recursively,
otherwise the overlay value replaces or creates the key outright. -/
def mergeMaps : List (String × Value) → List (String × Value) → List (String × Value)
  | base, [] => base
  | base, (k, Value.map om) :: rest =>
    (match lookupKey k base with
     | some (Value.map bm) => mergeMaps (setKey k (Value.map (mergeMaps bm om)) base) rest
     | _ => mergeMaps (setKey k (Value.map om) base) rest)
  | base, (k, v) :: rest => mergeMaps (setKey k v base) rest

/-- Modelled from the spec: compiled form of a pattern produced by the
external regular-expression engine (Go `regexp`, outside `src/`),
restricted to the fragment the configuration examples use: literal
strings and alternation. -/
inductive Regex where
  | lit : List Char → Regex
  | alt : Regex → Regex → Regex
deriving Repr, DecidableEq

/-- Whether the regular expression matches exactly the given character
sequence (an anchored, whole-string match). -/
def Regex.matchesExact : Regex → List Char → Bool
  | .lit w, s => s = w
  | .alt a b, s => a.matchesExact s || b.matchesExact s

/-- Go `Regexp.MatchString`: reports whether the string contains any
match of the regular expression, i.e. whether the expression matches
exactly some contiguous substring — the match is unanchored. -/
def matchString (re : Regex) (l : List Char) : Bool :=
  (List.range (l.length + 1)).any fun i =>
    (List.range (l.length + 1 - i)).any fun n =>
      re.matchesExact ((l.drop i).take n)

/-- Go `strings.Split` with a one-character separator: the substrings
between occurrences of the separator, in order.  Splitting the empty
string yields one empty field, and the result is never empty. -/
def splitOnChar (sep : Char) : List Char → List (List Char)
  | [] => [[]]
  | c :: rest =>
    let r := splitOnChar sep rest
    if c = sep then [] :: r
    else
      match r with
      | [] => [[c]]
      | h :: t => (c :: h) :: t

/-- `strings.Split` on strings, for a one-character separator. -/
def splitString (sep : Char) (s : String) : List String :=
  (splitOnChar sep s.toList).map fun cs => String.mk cs

/-- Metacharacters outside the modelled regular-expression fragment. -/
def regexMetaChars : List Char :=
  ['.', '*', '+', '?', '(', ')', '[', ']', '^', '$', '\\']

/-- Modelled from the spec: the external pattern compiler (Go
`regexp.Compile`, outside `src/`), restricted to the modelled
fragment.  A pattern made of literal branches separated by `|`
compiles; a pattern using any other metacharacter is conservatively
treated as failing to compile. -/
def compileRegex (p : String) : Except String Regex :=
  if p.toList.any (fun c => regexMetaChars.contains c) then
    Except.error "unsupported pattern"
  else
    match splitString '|' p with
    | [] => Except.error "unsupported pattern"
    | b :: bs =>
      Except.ok (bs.foldl (fun acc x => Regex.alt acc (Regex.lit x.toList))
        (Regex.lit b.toList))

/-- `instanceConfig` of `config.go`: identity settings of one route
rule.  `GeneratedSuffixSize` is a Go `int` (possibly non-positive). -/
structure instanceConfig where
  Hostname : String
  EnableInstanceIDSuffix : Bool
  EnableHostnameSuffix : Bool
  GeneratedSuffixSize : Int
deriving Repr, DecidableEq

/-- `serverConfig` of `config.go`: one route rule.  The parsed fields
come from the deserializer; `compiledMatchers` and `renderedUserData`
are the derived fields the Go struct keeps unexported (so the
deserializer always leaves them at their zero values `nil`/`nil`,
modelled as `[]` and `""`). -/
structure serverConfig where
  Name : String
  MatchPatterns : List String
  InstanceConfig : Option instanceConfig
  UserDataTemplate : String
  Replacements : List (String × Value)
  compiledMatchers : List Regex := []
  renderedUserData : String := ""
deriving Repr

/-- `config` of `config.go`: one parsed configuration document.
`UserDataTemplates` is Go's `map[string]map[string]any`. -/
structure config where
  ListenPort : Int
  ListenAddress : String
  ServerConfigs : List serverConfig
  UserDataTemplates : List (String × List (String × Value))
deriving Repr

/-- `metaData` of `config.go`, with the Go struct's field order. -/
structure metaData where
  InstanceID : String
  LocalHostname : String
  Hostname : String
deriving Repr, DecidableEq

def defaultListenAddress : String := "0.0.0.0"
def defaultListenPort : Int := 8000
def defaultSuffixLength : Int := 4

/-- Modelled from the spec: the document serializer (`yaml.Marshal` of
the external YAML library) for one value, as a total deterministic
printer.  Its exact byte format is irrelevant to the engine, which
treats the serialized template as an opaque byte string. -/
def marshalValue : Value → String
  | .str s => s
  | .int n => toString n
  | .bool b => toString b
  | .seq xs => "[" ++ String.intercalate ", " (xs.attach.map fun x => marshalValue x.1) ++ "]"
  | .map kvs =>
    "(" ++ String.intercalate ", "
      (kvs.attach.map fun kv => kv.1.1 ++ ": " ++ marshalValue kv.1.2) ++ ")"
termination_by v => sizeOf v
decreasing_by
  · have := List.sizeOf_lt_of_mem x.2
    simp only [Value.seq.sizeOf_spec]
    omega
  · rcases kv with ⟨⟨k, v⟩, hm⟩
    have := List.sizeOf_lt_of_mem hm
    simp only [Value.map.sizeOf_spec, Prod.mk.sizeOf_spec] at *
    omega

/-- Serialization of a whole mapping document. -/
def marshalMap (kvs : List (String × Value)) : String :=
  marshalValue (Value.map kvs)

/-- `(*serverConfig).loadMatchers` error for an empty pattern list. -/
def msgNoMatchers : String := "no matchers specified"

/-- Pattern compilation loop of `(*serverConfig).loadMatchers`:
compile every pattern in order, failing on the first that does not
compile with Go's `compile pattern %q: %w` wrapping. -/
def compilePatterns : List String → Except String (List Regex)
  | [] => Except.ok []
  | m :: rest =>
    match compileRegex m with
    | Except.error e =>
      Except.error ("compile pattern \"" ++ m ++ "\": " ++ e)
    | Except.ok re => (compilePatterns rest).map (re :: ·)

/-- `(*serverConfig).loadMatchers`: reject an empty pattern list, then
compile each pattern in order. -/
def serverConfig.loadMatchers (c : serverConfig) : Except String (List Regex) :=
  if c.MatchPatterns = [] then Except.error msgNoMatchers
  else compilePatterns c.MatchPatterns

/-- `(*instanceConfig).validate`: the hostname must be set. -/
def instanceConfig.validate (c : instanceConfig) : Except String Unit :=
  if c.Hostname = "" then Except.error "hostname field must be set"
  else Except.ok ()

/-- Fixed `loadConfig` error for replacements without a template. -/
def msgReplacersNeedTemplate : String :=
  "replacers can only be configured when referencing a user data template"

/-- Fixed prefix of the `loadConfig` error wrapping a hostname
validation failure (`invalid instance config: %w`). -/
def msgInvalidInstanceConfig : String :=
  "invalid instance config: " ++ "hostname field must be set"

/-- The per-rule body of `loadConfig`'s loop over `cfg.ServerConfigs`:
compile the matchers, require an `instanceConfig` with a hostname,
reject replacements without a template reference, and — when the
template reference resolves — merge the replacements into a copy of
the template and serialize the result into `renderedUserData`. -/
def processRule (templates : List (String × List (String × Value)))
    (c : serverConfig) : Except String serverConfig :=
  match c.loadMatchers with
  | Except.error e =>
    Except.error ("config \"" ++ c.Name ++ "\" has invalid matchers: " ++ e)
  | Except.ok ms =>
    match c.InstanceConfig with
    | none =>
      Except.error ("config \"" ++ c.Name ++ "\" does not have an instanceConfig set")
    | some ic =>
      match ic.validate with
      | Except.error e => Except.error ("invalid instance config: " ++ e)
      | Except.ok _ =>
        if c.UserDataTemplate = "" ∧ c.Replacements.length > 0 then
          Except.error msgReplacersNeedTemplate
        else
          match templates.lookup c.UserDataTemplate with
          | some userData =>
            let clone := userData
            let merged :=
              if c.Replacements.length > 0 then mergeMaps clone c.Replacements
              else clone
            Except.ok { c with compiledMatchers := ms,
                               renderedUserData := marshalMap merged }
          | none => Except.ok { c with compiledMatchers := ms }

/-- `loadConfig`'s loop: process each rule in order, stopping at the
first failing rule. -/
def processRules (templates : List (String × List (String × Value))) :
    List serverConfig → Except String (List serverConfig)
  | [] => Except.ok []
  | c :: rest =>
    match processRule templates c with
    | Except.error e => Except.error e
    | Except.ok c' => (processRules templates rest).map (c' :: ·)

/-- `loadConfig`, from the parsed document onward (file reading and
YAML deserialization are external): reject an empty rule list, process
every rule, then apply the listen-address/port defaults. -/
def loadConfig (path : String) (cfg : config) : Except String config :=
  if cfg.ServerConfigs.length = 0 then
    Except.error ("config file \"" ++ path ++ "\" has no serving configurations")
  else
    match processRules cfg.UserDataTemplates cfg.ServerConfigs with
    | Except.error e => Except.error e
    | Except.ok rules =>
      Except.ok { cfg with
        ServerConfigs := rules,
        ListenAddress :=
          if cfg.ListenAddress = "" then defaultListenAddress else cfg.ListenAddress,
        ListenPort :=
          if cfg.ListenPort = 0 then defaultListenPort else cfg.ListenPort }

/-- `(*serverConfig).Match`: true when any compiled matcher matches
the path. -/
def serverConfig.Match (c : serverConfig) (s : String) : Bool :=
  c.compiledMatchers.any fun re => matchString re s.toList

/-- The route scan of `config.ServeHTTP`: the first rule, in declared
array order, whose `Match` accepts the path. -/
def route (cfg : config) (path : String) : Option serverConfig :=
  cfg.ServerConfigs.find? fun s => s.Match path

/-- Hexadecimal digit of a nibble, lowercase as in Go `encoding/hex`. -/
def hexDigit (n : Nat) : Char :=
  if n < 10 then Char.ofNat (48 + n) else Char.ofNat (97 + (n - 10))

/-- Go `hex.EncodeToString`: two lowercase hex digits per byte. -/
def hexEncode (bs : List Nat) : String :=
  String.mk (bs.flatMap fun b => [hexDigit (b / 16), hexDigit (b % 16)])

/-- `genSuffix`: default a non-positive requested length to 4, read
that many bytes from the secure random source (the oracle `src`), and
return them hex-encoded behind a `-`.  A failed read is an error. -/
def genSuffix (n : Int) (src : Nat → Option (List Nat)) : Except String String :=
  let n := if n ≤ 0 then defaultSuffixLength else n
  match src n.toNat with
  | none => Except.error "read random: entropy source failure"
  | some bs => Except.ok ("-" ++ hexEncode bs)

/-- `(*instanceConfig).RenderMetaData`, up to serialization: build the
record from the hostname and the serial, generate one suffix when
either suffix flag is enabled, and append it to the fields whose flag
is set. -/
def instanceConfig.RenderMetaData (c : instanceConfig) (serial : String)
    (src : Nat → Option (List Nat)) : Except String metaData :=
  let base : metaData :=
    { InstanceID := "i-" ++ serial, LocalHostname := c.Hostname, Hostname := c.Hostname }
  if c.EnableHostnameSuffix || c.EnableInstanceIDSuffix then
    match genSuffix c.GeneratedSuffixSize src with
    | Except.error e => Except.error ("generate suffix: " ++ e)
    | Except.ok sfx =>
      Except.ok
        { InstanceID := base.InstanceID ++ (if c.EnableInstanceIDSuffix then sfx else ""),
          LocalHostname := base.LocalHostname ++ (if c.EnableHostnameSuffix then sfx else ""),
          Hostname := base.Hostname ++ (if c.EnableHostnameSuffix then sfx else "") }
  else Except.ok base

/-- `yaml.Marshal` of the `metaData` struct: one `key: value` line per
field, in the struct's field order. -/
def yamlMarshalMetaData (md : metaData) : String :=
  "instance-id: " ++ md.InstanceID ++ "\n" ++
  "local-hostname: " ++ md.LocalHostname ++ "\n" ++
  "hostname: " ++ md.Hostname ++ "\n"

/-- Outcome of handling one request: a 200 body, a 500 with a message,
a 404, or a Go runtime panic (index out of range / nil dereference). -/
inductive Response where
  | ok : String → Response
  | internalError : String → Response
  | notFound : Response
  | panic : Response
deriving Repr, DecidableEq

/-- `serverConfig.ServeHTTP`: split the path on `/` and dispatch on
the trailing segment.  `meta-data` takes the preceding segment as the
serial and renders metadata live; `user-data` writes the precomputed
bytes; `vendor-data` writes nothing (an empty 200); anything else is
404.  Indexing `split[len-2]` panics when the split has fewer than two
segments, and a `nil` `InstanceConfig` dereference panics. -/
def serverConfig.ServeHTTP (c : serverConfig) (path : String)
    (src : Nat → Option (List Nat)) : Response :=
  let split := splitString '/' path
  if split.getLastD "" = "meta-data" then
    if split.length < 2 then Response.panic
    else
      let serial := split.getD (split.length - 2) ""
      match c.InstanceConfig with
      | none => Response.panic
      | some ic =>
        match ic.RenderMetaData serial src with
        | Except.error e => Response.internalError e
        | Except.ok md => Response.ok (yamlMarshalMetaData md)
  else if split.getLastD "" = "user-data" then Response.ok c.renderedUserData
  else if split.getLastD "" = "vendor-data" then Response.ok ""
  else Response.notFound

/-- `config.ServeHTTP`: scan the rules in declared order, serve from
the first whose `Match` accepts the path, else answer 404. -/
def config.ServeHTTP (cfg : config) (path : String)
    (src : Nat → Option (List Nat)) : Response :=
  match route cfg path with
  | some s => s.ServeHTTP path src
  | none => Response.notFound

/-- State of the server process as the reload watcher sees it. -/
inductive ProcState where
  | serving : config → ProcState
  | terminated : ProcState
deriving Repr

/-- Modelled from the spec: `(*config).reload`, whose body is not under
`src/` (only its caller in `main` is) — `load` the new source and, on
success, install the resulting snapshot. -/
def reload (path : String) (newSrc : config) : Except String config :=
  loadConfig path newSrc

/-- The reload branch of `main`'s watcher goroutine: on a
modification event, reload; a reload error is passed to `log.Fatalf`,
which terminates the whole process. -/
def watcherOnModify (path : String) (newSrc : config) : ProcState :=
  match reload path newSrc with
  | Except.ok c => ProcState.serving c
  | Except.error _ => ProcState.terminated

/-- Whether `needle` occurs as a contiguous substring of `hay`. -/
def strContains (needle hay : String) : Bool :=
  (List.range (hay.length + 1)).any fun i =>
    needle.toList.isPrefixOf (hay.toList.drop i)

/-- The value `mergeMaps` stores at one overlay key: the recursive
merge when both sides are mappings, the overlay value otherwise. -/
def mergeOne (base : List (String × Value)) (k : String) (v : Value) : Value :=
  match lookupKey k base, v with
  | some (Value.map bm), Value.map om => Value.map (mergeMaps bm om)
  | _, _ => v

/-- The number of random bytes `genSuffix` requests: the configured
length, defaulting to 4 when it is non-positive. -/
def effectiveSuffixBytes (n : Int) : Nat :=
  (if n ≤ 0 then defaultSuffixLength else n).toNat

/-- Stated from the spec's words (for comparison with `loadConfig`):
the first pattern-compilation failure of a rule, in pattern order. -/
def firstCompileError : List String → Option String
  | [] => none
  | m :: rest =>
    match compileRegex m with
    | Except.error e => some ("compile pattern \"" ++ m ++ "\": " ++ e)
    | Except.ok _ => firstCompileError rest

/-- Stated from the spec's words: the first violated per-rule check,
in the spec's order — pattern list non-empty and compiling, instance
config present with a hostname, replacements only with a template
reference (the merge/serialization step is total in this embedding
and cannot fail). -/
def specRuleError (c : serverConfig) : Option String :=
  if c.MatchPatterns = [] then
    some ("config \"" ++ c.Name ++ "\" has invalid matchers: " ++ msgNoMatchers)
  else
    match firstCompileError c.MatchPatterns with
    | some msg => some ("config \"" ++ c.Name ++ "\" has invalid matchers: " ++ msg)
    | none =>
      match c.InstanceConfig with
      | none => some ("config \"" ++ c.Name ++ "\" does not have an instanceConfig set")
      | some ic =>
        if ic.Hostname = "" then some msgInvalidInstanceConfig
        else if c.UserDataTemplate = "" ∧ c.Replacements.length > 0 then
          some msgReplacersNeedTemplate
        else none

/-- Stated from the spec's words: the first failing rule's first
violated check, in declaration order. -/
def firstRuleError : List serverConfig → Option String
  | [] => none
  | c :: rest =>
    match specRuleError c with
    | some e => some e
    | none => firstRuleError rest

/-- Stated from the spec's words: the ordered fail-fast validation of
`load` — non-empty rule list first, then the per-rule checks rule by
rule. -/
def specFirstError (path : String) (cfg : config) : Option String :=
  if cfg.ServerConfigs.length = 0 then
    some ("config file \"" ++ path ++ "\" has no serving configurations")
  else firstRuleError cfg.ServerConfigs

/-- A configuration whose only rule, named `alpha`, has an empty
hostname — syntactically valid, semantically rejected by `load`. -/
def cfgBadHostname : config :=
  { ListenPort := 0, ListenAddress := "",
    ServerConfigs :=
      [{ Name := "alpha", MatchPatterns := ["dev"],
         InstanceConfig := some ⟨"", false, false, 0⟩,
         UserDataTemplate := "", Replacements := [] }],
    UserDataTemplates := [] }

theorem lookupKey_eq_none_of_not_mem (k : String) (l : List (String × Value))
    (h : k ∉ l.map Prod.fst) : lookupKey k l = none := by
  induction l with
  | nil => rfl
  | cons hd rest ih =>
    obtain ⟨k', v⟩ := hd
    simp only [List.map_cons, List.mem_cons, not_or] at h
    simp only [lookupKey, if_neg (fun hh : k' = k => h.1 hh.symm)]
    exact ih h.2

theorem lookupKey_setKey (q k : String) (v : Value) (l : List (String × Value)) :
    lookupKey q (setKey k v l) = if k = q then some v else lookupKey q l := by
  induction l with
  | nil => simp [setKey, lookupKey]
  | cons hd rest ih =>
    obtain ⟨k', v'⟩ := hd
    by_cases h1 : k' = k
    · subst h1
      simp only [setKey, if_pos rfl, lookupKey]
      by_cases h2 : k' = q
      · simp [h2]
      · simp [h2]
    · simp only [setKey, if_neg h1, lookupKey]
      by_cases h2 : k' = q
      · subst h2
        simp [if_neg (fun hh : k' = k => h1 hh), if_pos rfl,
          if_neg (fun hh : k = k' => h1 hh.symm)]
      · simp [h2, ih]

theorem mergeMaps_cons (base : List (String × Value)) (k : String) (v : Value)
    (rest : List (String × Value)) :
    mergeMaps base ((k, v) :: rest) = mergeMaps (setKey k (mergeOne base k v) base) rest := by
  cases v with
  | map om =>
    cases hb : lookupKey k base with
    | none => simp [mergeMaps, mergeOne, hb]
    | some w => cases w <;> simp [mergeMaps, mergeOne, hb]
  | str s =>
    cases hb : lookupKey k base with
    | none => simp [mergeMaps, mergeOne, hb]
    | some w => cases w <;> simp [mergeMaps, mergeOne, hb]
  | int n =>
    cases hb : lookupKey k base with
    | none => simp [mergeMaps, mergeOne, hb]
    | some w => cases w <;> simp [mergeMaps, mergeOne, hb]
  | bool b =>
    cases hb : lookupKey k base with
    | none => simp [mergeMaps, mergeOne, hb]
    | some w => cases w <;> simp [mergeMaps, mergeOne, hb]
  | seq xs =>
    cases hb : lookupKey k base with
    | none => simp [mergeMaps, mergeOne, hb]
    | some w => cases w <;> simp [mergeMaps, mergeOne, hb]

theorem lookupKey_mergeMaps (ov : List (String × Value)) :
    ∀ (base : List (String × Value)) (k : String),
    (ov.map Prod.fst).Nodup →
    lookupKey k (mergeMaps base ov) =
      match lookupKey k ov with
      | none => lookupKey k base
      | some v => some (mergeOne base k v) := by
  induction ov with
  | nil => intro base k _; simp [mergeMaps, lookupKey]
  | cons hd rest ih =>
    intro base k hnd
    obtain ⟨k₀, v₀⟩ := hd
    simp only [List.map_cons, List.nodup_cons] at hnd
    obtain ⟨hk₀, hrest⟩ := hnd
    rw [mergeMaps_cons, ih _ k hrest]
    by_cases hkk : k₀ = k
    · subst hkk
      have hnone : lookupKey k₀ rest = none := lookupKey_eq_none_of_not_mem _ _ hk₀
      simp [hnone, lookupKey_setKey, lookupKey]
    · simp only [lookupKey, if_neg hkk, lookupKey_setKey]
      cases hr : lookupKey k rest with
      | none => simp [if_neg hkk]
      | some v =>
        simp only [if_neg hkk]
        have : mergeOne (setKey k₀ (mergeOne base k₀ v₀) base) k v = mergeOne base k v := by
          unfold mergeOne
          rw [lookupKey_setKey, if_neg hkk]
        rw [this]

theorem mergeMaps_nil (base : List (String × Value)) : mergeMaps base [] = base := by
  simp [mergeMaps]

/-- C2: merge works on a (deep) copy of the base — in this pure
embedding the base value is immutable, so non-mutation is inherent —
and, for each overlay key: if both the base value and the overlay
value are mappings they are merged recursively (overlay keys win on
conflicts, keys unique to either side are preserved, by this same
characterization applied to the sub-mappings); in every other case
(scalar, sequence, type mismatch, or key absent from base) the
overlay value replaces or creates the key; keys absent from the
overlay keep their base value.  In particular merging
`(a:1, b:(x:1))` with overlay `(b:(y:2))` yields
`(a:1, b:(x:1, y:2))`, and merging `(c:1)` with `(c:2)` yields
`(c:2)`. -/
theorem merge_deep_semantics :
    (∀ (base ov : List (String × Value)) (k : String),
       (ov.map Prod.fst).Nodup →
       (lookupKey k ov = none → lookupKey k (mergeMaps base ov) = lookupKey k base) ∧
       (∀ bm om, lookupKey k base = some (Value.map bm) →
          lookupKey k ov = some (Value.map om) →
          lookupKey k (mergeMaps base ov) = some (Value.map (mergeMaps bm om))) ∧
       (∀ v, lookupKey k ov = some v →
          (∀ bm om, ¬(lookupKey k base = some (Value.map bm) ∧ v = Value.map om)) →
          lookupKey k (mergeMaps base ov) = some v))
  ∧ mergeMaps [("a", Value.int 1), ("b", Value.map [("x", Value.int 1)])]
      [("b", Value.map [("y", Value.int 2)])]
    = [("a", Value.int 1), ("b", Value.map [("x", Value.int 1), ("y", Value.int 2)])]
  ∧ mergeMaps [("c", Value.int 1)] [("c", Value.int 2)] = [("c", Value.int 2)] := by
  refine ⟨fun base ov k hnd => ⟨?_, ?_, ?_⟩, ?_, ?_⟩
  case refine_4 =>
    rw [mergeMaps_cons, mergeMaps_nil]
    show setKey "b" (Value.map (mergeMaps [("x", Value.int 1)] [("y", Value.int 2)])) _ = _
    rw [mergeMaps_cons, mergeMaps_nil]
    rfl
  case refine_5 =>
    rw [mergeMaps_cons, mergeMaps_nil]; rfl
  · intro hnone
    rw [lookupKey_mergeMaps ov base k hnd, hnone]
  · intro bm om hbase hov
    rw [lookupKey_mergeMaps ov base k hnd, hov]
    simp [mergeOne, hbase]
  · intro v hov hnotboth
    rw [lookupKey_mergeMaps ov base k hnd, hov]
    unfold mergeOne
    cases hb : lookupKey k base with
    | none => cases v <;> rfl
    | some w =>
      cases w <;> cases v <;> first
        | rfl
        | (exact absurd ⟨hb, rfl⟩ (hnotboth _ _))

/-- Witness for C2: the recursive-merge clause evaluated on the
spec's own example. -/
theorem merge_deep_semantics_witness :
    lookupKey "b"
      (mergeMaps [("a", Value.int 1), ("b", Value.map [("x", Value.int 1)])]
        [("b", Value.map [("y", Value.int 2)])]) =
      some (Value.map (mergeMaps [("x", Value.int 1)] [("y", Value.int 2)])) :=
  (merge_deep_semantics.1 _ _ "b" (by simp)).2.1
    [("x", Value.int 1)] [("y", Value.int 2)] (by rfl) (by rfl)

theorem find?_first_of_prior_false {α : Type} (p : α → Bool) :
    ∀ (l : List α) (i : Nat) (h : i < l.length),
      p (l.get ⟨i, h⟩) = true →
      (∀ j (hj : j < l.length), j < i → p (l.get ⟨j, hj⟩) = false) →
      l.find? p = some (l.get ⟨i, h⟩) := by
  intro l
  induction l with
  | nil => intro i h; exact absurd h (by simp)
  | cons a l ih =>
    intro i h hp hprev
    cases i with
    | zero =>
      simp only [List.get] at hp
      simp [List.find?, hp]
    | succ i =>
      have ha : p a = false := hprev 0 (by simp) (by omega)
      simp only [List.get] at hp ⊢
      simp only [List.find?, ha]
      exact ih i (by simpa using h) hp
        (fun j hj hlt => hprev (j + 1) (by simpa using hj) (by omega))

/-- C1: the router scans the rules in declared array order; the
selected rule is the first one, in that order, whose `Match` accepts
the path — so when two rules both match, the one at the smaller index
is selected regardless of specificity — and when no rule matches the
request is answered NotFound. -/
theorem routing_first_match (cfg : config) (path : String)
    (src : Nat → Option (List Nat)) :
    (route cfg path = none ↔ ∀ s ∈ cfg.ServerConfigs, s.Match path = false)
  ∧ (route cfg path = none → cfg.ServeHTTP path src = Response.notFound)
  ∧ (∀ s, route cfg path = some s → s ∈ cfg.ServerConfigs ∧ s.Match path = true)
  ∧ (∀ (i : Nat) (h : i < cfg.ServerConfigs.length),
       (cfg.ServerConfigs.get ⟨i, h⟩).Match path = true →
       (∀ (j : Nat) (hj : j < cfg.ServerConfigs.length), j < i →
          (cfg.ServerConfigs.get ⟨j, hj⟩).Match path = false) →
       route cfg path = some (cfg.ServerConfigs.get ⟨i, h⟩)) := by
  refine ⟨?_, ?_, ?_, ?_⟩
  · simp [route, List.find?_eq_none]
  · intro h
    simp [config.ServeHTTP, h]
  · intro s hs
    simp only [route] at hs
    have h2 := List.find?_some hs
    exact ⟨List.mem_of_find?_eq_some hs, h2⟩
  · intro i h hp hprev
    exact find?_first_of_prior_false _ _ i h hp hprev

/-- Witness for C1: with two rules both matching `/dev/user-data`,
the earlier one is selected even though the later pattern is more
specific. -/
theorem routing_first_match_witness :
    route
      { ListenPort := 8000, ListenAddress := "0.0.0.0",
        ServerConfigs :=
          [{ Name := "broad", MatchPatterns := ["dev"],
             InstanceConfig := some ⟨"broad-host", false, false, 0⟩,
             UserDataTemplate := "", Replacements := [],
             compiledMatchers := [Regex.lit "dev".toList] },
           { Name := "specific", MatchPatterns := ["/dev/user-data"],
             InstanceConfig := some ⟨"specific-host", false, false, 0⟩,
             UserDataTemplate := "", Replacements := [],
             compiledMatchers := [Regex.lit "/dev/user-data".toList] }],
        UserDataTemplates := [] } "/dev/user-data"
    = some
        { Name := "broad", MatchPatterns := ["dev"],
          InstanceConfig := some ⟨"broad-host", false, false, 0⟩,
          UserDataTemplate := "", Replacements := [],
          compiledMatchers := [Regex.lit "dev".toList] } :=
  (routing_first_match _ "/dev/user-data" (fun _ => none)).2.2.2 0 (by simp)
    (by rfl) (by omega)

theorem matchString_iff (re : Regex) (l : List Char) :
    matchString re l = true ↔
      ∃ i n : Nat, re.matchesExact ((l.drop i).take n) = true := by
  unfold matchString
  simp only [List.any_eq_true, List.mem_range]
  constructor
  · rintro ⟨i, _, n, _, h⟩
    exact ⟨i, n, h⟩
  · rintro ⟨i, n, h⟩
    by_cases hi : l.length ≤ i
    · refine ⟨l.length, by omega, 0, by omega, ?_⟩
      rw [List.drop_eq_nil_of_le hi, List.take_nil] at h
      simpa [List.drop_length] using h
    · push_neg at hi
      by_cases hn : l.length - i ≤ n
      · refine ⟨i, by omega, l.length - i, by omega, ?_⟩
        rw [List.take_of_length_le (by rw [List.length_drop]; omega)] at h
        rwa [List.take_of_length_le (by rw [List.length_drop])]
      · exact ⟨i, by omega, n, by omega, h⟩

/-- C10: pattern matching is unanchored — a rule matches a path iff
some compiled expression of the rule matches some contiguous
substring of the path, not necessarily the whole path.  In
particular the pattern `dev` (which compiles to a literal) matches
both `/devices/user-data` and `/dev/user-data` while matching
neither path in its entirety. -/
theorem match_unanchored :
    (∀ (c : serverConfig) (path : String),
       c.Match path = true ↔
         ∃ re ∈ c.compiledMatchers, ∃ i n : Nat,
           re.matchesExact ((path.toList.drop i).take n) = true)
  ∧ compileRegex "dev" = Except.ok (Regex.lit "dev".toList)
  ∧ matchString (Regex.lit "dev".toList) "/devices/user-data".toList = true
  ∧ matchString (Regex.lit "dev".toList) "/dev/user-data".toList = true
  ∧ Regex.matchesExact (Regex.lit "dev".toList) "/devices/user-data".toList = false
  ∧ Regex.matchesExact (Regex.lit "dev".toList) "/dev/user-data".toList = false := by
  refine ⟨fun c path => ?_, by rfl, by decide, by decide, by decide, by decide⟩
  unfold serverConfig.Match
  simp only [List.any_eq_true]
  constructor
  · rintro ⟨re, hre, hm⟩
    exact ⟨re, hre, (matchString_iff re path.toList).1 hm⟩
  · rintro ⟨re, hre, i, n, h⟩
    exact ⟨re, hre, (matchString_iff re path.toList).2 ⟨i, n, h⟩⟩

/-- Witness for C10: a rule whose only pattern is the literal `dev`
matches `/devices/user-data`. -/
theorem match_unanchored_witness :
    ({ Name := "r", MatchPatterns := ["dev"],
       InstanceConfig := some ⟨"h", false, false, 0⟩,
       UserDataTemplate := "", Replacements := [],
       compiledMatchers := [Regex.lit "dev".toList] } : serverConfig).Match
      "/devices/user-data" = true :=
  (match_unanchored.1 _ "/devices/user-data").2
    ⟨Regex.lit "dev".toList, by simp, 1, 3, by decide⟩

theorem hexEncode_length (bs : List Nat) : (hexEncode bs).length = 2 * bs.length := by
  induction bs with
  | nil => rfl
  | cons b rest ih =>
    simp only [hexEncode, String.length] at ih ⊢
    simp [List.flatMap_cons, ih]
    omega

/-- C3: a successful render yields `instance-id = "i-" ++ serial` and
`hostname = local-hostname = ` the configured hostname; when either
suffix flag is enabled one suffix is generated — `suffixByteLength`
random bytes (4 when the configured length is non-positive),
hex-encoded behind a `-` — and appended to hostname/local-hostname
exactly when the hostname-suffix flag is set and to instance-id
exactly when the instance-id-suffix flag is set; a random-source
failure makes that render (and, rendering being a pure function of
its inputs, only that render) return an error. -/
theorem render_metadata_fields (c : instanceConfig) (serial : String)
    (src : Nat → Option (List Nat)) :
    (c.EnableHostnameSuffix = false → c.EnableInstanceIDSuffix = false →
       c.RenderMetaData serial src =
         Except.ok ⟨"i-" ++ serial, c.Hostname, c.Hostname⟩)
  ∧ ((c.EnableHostnameSuffix = true ∨ c.EnableInstanceIDSuffix = true) →
       (src (effectiveSuffixBytes c.GeneratedSuffixSize) = none →
          ∃ e, c.RenderMetaData serial src = Except.error e)
     ∧ (∀ bs, src (effectiveSuffixBytes c.GeneratedSuffixSize) = some bs →
          c.RenderMetaData serial src =
            Except.ok
              ⟨"i-" ++ serial ++ (if c.EnableInstanceIDSuffix then "-" ++ hexEncode bs else ""),
               c.Hostname ++ (if c.EnableHostnameSuffix then "-" ++ hexEncode bs else ""),
               c.Hostname ++ (if c.EnableHostnameSuffix then "-" ++ hexEncode bs else "")⟩))
  ∧ (∀ bs : List Nat, ("-" ++ hexEncode bs).length = 1 + 2 * bs.length)
  ∧ (c.GeneratedSuffixSize ≤ 0 → effectiveSuffixBytes c.GeneratedSuffixSize = 4) := by
  refine ⟨?_, ?_, ?_, ?_⟩
  · intro h1 h2
    simp [instanceConfig.RenderMetaData, h1, h2]
  · intro hflag
    have hcond : (c.EnableHostnameSuffix || c.EnableInstanceIDSuffix) = true := by
      rcases hflag with h | h <;> simp [h]
    constructor
    · intro hnone
      refine ⟨"generate suffix: read random: entropy source failure", ?_⟩
      simp [instanceConfig.RenderMetaData, hcond, genSuffix,
        effectiveSuffixBytes] at hnone ⊢
      simp [hnone]
    · intro bs hsome
      simp [instanceConfig.RenderMetaData, hcond, genSuffix,
        effectiveSuffixBytes] at hsome ⊢
      simp [hsome, String.append_assoc]
  · intro bs
    rw [String.length_append, hexEncode_length]
    rfl
  · intro h
    simp [effectiveSuffixBytes, h, defaultSuffixLength]

/-- Witness for C3: both flags enabled, configured length 0 defaults
to 4 bytes, suffix `-00010203` appended to all three fields. -/
theorem render_metadata_fields_witness :
    (⟨"h", true, true, 0⟩ : instanceConfig).RenderMetaData "abcd"
      (fun n => some ((List.range n).map (· % 256))) =
      Except.ok ⟨"i-abcd-00010203", "h-00010203", "h-00010203"⟩ := by
  have h := (render_metadata_fields ⟨"h", true, true, 0⟩ "abcd"
    (fun n => some ((List.range n).map (· % 256)))).2.1 (Or.inl rfl)
  have h2 := h.2 ((List.range 4).map (· % 256)) (by rfl)
  simpa using h2

/-- C4: within one render call with both suffix flags enabled, the
suffix is generated once: hostname, local-hostname and instance-id
all carry the identical suffix value. -/
theorem render_single_suffix (c : instanceConfig) (serial : String)
    (src : Nat → Option (List Nat)) (md : metaData)
    (hh : c.EnableHostnameSuffix = true) (hi : c.EnableInstanceIDSuffix = true)
    (hok : c.RenderMetaData serial src = Except.ok md) :
    ∃ sfx : String,
      md.Hostname = c.Hostname ++ sfx ∧
      md.LocalHostname = c.Hostname ++ sfx ∧
      md.InstanceID = "i-" ++ serial ++ sfx := by
  unfold instanceConfig.RenderMetaData at hok
  rw [hh, hi] at hok
  simp only [Bool.true_or, if_true] at hok
  cases hgen : genSuffix c.GeneratedSuffixSize src with
  | error e => rw [hgen] at hok; exact absurd hok (by simp)
  | ok sfx =>
    rw [hgen] at hok
    simp only [Except.ok.injEq] at hok
    exact ⟨sfx, by rw [← hok]; simp [String.append_assoc]⟩

/-- Witness for C4: a concrete render whose three fields share the
suffix `-00`. -/
theorem render_single_suffix_witness :
    ∃ sfx : String,
      ("h-00" : String) = "h" ++ sfx ∧ ("h-00" : String) = "h" ++ sfx ∧
      ("i-abcd-00" : String) = "i-" ++ "abcd" ++ sfx :=
  render_single_suffix ⟨"h", true, true, 1⟩ "abcd" (fun n => some (List.replicate n 0))
    ⟨"i-abcd-00", "h-00", "h-00"⟩ rfl rfl (by rfl)

theorem processRule_ok_fields (t : List (String × List (String × Value)))
    (c c' : serverConfig) (h : processRule t c = Except.ok c') :
    c'.Name = c.Name ∧ c'.UserDataTemplate = c.UserDataTemplate ∧
    (t.lookup c.UserDataTemplate = none → c'.renderedUserData = c.renderedUserData) := by
  unfold processRule at h
  cases hlm : c.loadMatchers with
  | error e => simp only [hlm] at h; exact absurd h (by simp)
  | ok ms =>
    simp only [hlm] at h
    cases hic : c.InstanceConfig with
    | none => simp only [hic] at h; exact absurd h (by simp)
    | some ic =>
      simp only [hic] at h
      cases hv : ic.validate with
      | error e => simp only [hv] at h; exact absurd h (by simp)
      | ok u =>
        simp only [hv] at h
        by_cases hrt : c.UserDataTemplate = "" ∧ c.Replacements.length > 0
        · rw [if_pos hrt] at h; exact absurd h (by simp)
        · rw [if_neg hrt] at h
          cases hlt : t.lookup c.UserDataTemplate with
          | some ud =>
            simp only [hlt, Except.ok.injEq] at h
            subst h
            refine ⟨rfl, rfl, fun hn => ?_⟩
            exact absurd hn (by simp)
          | none =>
            simp only [hlt, Except.ok.injEq] at h
            subst h
            exact ⟨rfl, rfl, fun _ => rfl⟩

theorem processRules_mem (t : List (String × List (String × Value))) :
    ∀ (rules rules' : List serverConfig),
      processRules t rules = Except.ok rules' →
      ∀ c' ∈ rules', ∃ c ∈ rules, processRule t c = Except.ok c' := by
  intro rules
  induction rules with
  | nil =>
    intro rules' h c' hc'
    simp only [processRules, Except.ok.injEq] at h
    subst h
    exact absurd hc' (by simp)
  | cons c rest ih =>
    intro rules' h c' hc'
    simp only [processRules] at h
    cases hpr : processRule t c with
    | error e => simp only [hpr] at h; exact absurd h (by simp)
    | ok c0 =>
      simp only [hpr] at h
      cases hrest : processRules t rest with
      | error e => simp only [hrest, Except.map] at h; exact absurd h (by simp)
      | ok rest' =>
        simp only [hrest, Except.map, Except.ok.injEq] at h
        subst h
        rcases List.mem_cons.mp hc' with hceq | hmem
        · exact ⟨c, by simp, hceq ▸ hpr⟩
        · obtain ⟨cc, hcc, hcc2⟩ := ih rest' hrest c' hmem
          exact ⟨cc, by simp [hcc], hcc2⟩

theorem loadConfig_ok_inv (path : String) (cfg cfg' : config)
    (h : loadConfig path cfg = Except.ok cfg') :
    cfg'.UserDataTemplates = cfg.UserDataTemplates ∧
    processRules cfg.UserDataTemplates cfg.ServerConfigs = Except.ok cfg'.ServerConfigs := by
  unfold loadConfig at h
  by_cases hz : cfg.ServerConfigs.length = 0
  · rw [if_pos hz] at h; exact absurd h (by simp)
  · rw [if_neg hz] at h
    cases hpr : processRules cfg.UserDataTemplates cfg.ServerConfigs with
    | error e => rw [hpr] at h; exact absurd h (by simp)
    | ok rules =>
      rw [hpr] at h
      simp only [Except.ok.injEq] at h
      subst h
      exact ⟨rfl, rfl⟩

/-- C5: a matched rule dispatches on the trailing `/`-separated
segment of the path — `meta-data` renders metadata live with the
preceding segment as the serial token, `user-data` answers the rule's
precomputed `renderedUserData` verbatim, `vendor-data` answers an
empty success, anything else is NotFound — and, after a successful
load of a parsed configuration (whose rules carry the deserializer's
zero values in the derived fields), a rule whose template reference
resolves to no entry of `userDataTemplates` has empty
`renderedUserData`. -/
theorem dispatch_by_trailing_segment :
    (∀ (c : serverConfig) (ic : instanceConfig) (path : String)
       (src : Nat → Option (List Nat)),
       c.InstanceConfig = some ic →
       ((splitString '/' path).getLastD "" = "meta-data" →
          2 ≤ (splitString '/' path).length →
          c.ServeHTTP path src =
            match ic.RenderMetaData
                ((splitString '/' path).getD ((splitString '/' path).length - 2) "") src with
            | Except.ok md => Response.ok (yamlMarshalMetaData md)
            | Except.error e => Response.internalError e) ∧
       ((splitString '/' path).getLastD "" = "user-data" →
          c.ServeHTTP path src = Response.ok c.renderedUserData) ∧
       ((splitString '/' path).getLastD "" = "vendor-data" →
          c.ServeHTTP path src = Response.ok "") ∧
       ((splitString '/' path).getLastD "" ∉
          (["meta-data", "user-data", "vendor-data"] : List String) →
          c.ServeHTTP path src = Response.notFound))
  ∧ (∀ (path : String) (cfg cfg' : config),
       (∀ c ∈ cfg.ServerConfigs, c.renderedUserData = "") →
       loadConfig path cfg = Except.ok cfg' →
       ∀ c' ∈ cfg'.ServerConfigs,
         cfg'.UserDataTemplates.lookup c'.UserDataTemplate = none →
         c'.renderedUserData = "") := by
  constructor
  · intro c ic path src hic
    refine ⟨?_, ?_, ?_, ?_⟩
    · intro hlast hlen
      simp only [serverConfig.ServeHTTP, hlast]
      rw [if_pos trivial, if_neg (by omega), hic]
      cases hr : ic.RenderMetaData
          ((splitString '/' path).getD ((splitString '/' path).length - 2) "") src with
      | error e => simp only [List.getD, List.get?_eq_getElem?] at hr; simp [hr]
      | ok md => simp only [List.getD, List.get?_eq_getElem?] at hr; simp [hr]
    · intro hlast
      simp only [serverConfig.ServeHTTP, hlast]
      simp
    · intro hlast
      simp only [serverConfig.ServeHTTP, hlast]
      simp
    · intro hlast
      have h1 : (splitString '/' path).getLastD "" ≠ "meta-data" :=
        fun h => hlast (by rw [h]; simp)
      have h2 : (splitString '/' path).getLastD "" ≠ "user-data" :=
        fun h => hlast (by rw [h]; simp)
      have h3 : (splitString '/' path).getLastD "" ≠ "vendor-data" :=
        fun h => hlast (by rw [h]; simp)
      simp only [serverConfig.ServeHTTP]
      rw [if_neg h1, if_neg h2, if_neg h3]
  · intro path cfg cfg' hzero hload c' hc' hlook
    obtain ⟨ht, hpr⟩ := loadConfig_ok_inv path cfg cfg' hload
    obtain ⟨c, hc, hcr⟩ := processRules_mem _ _ _ hpr c' hc'
    obtain ⟨_, hut, hrud⟩ := processRule_ok_fields _ _ _ hcr
    rw [ht, hut] at hlook
    rw [hrud hlook]
    exact hzero c hc

/-- Witness for C5: a loaded one-rule configuration whose rule
references the missing template `missing` serves empty user-data. -/
theorem dispatch_by_trailing_segment_witness :
    ∀ c' ∈ (config.ServerConfigs
      { ListenPort := 8000, ListenAddress := "0.0.0.0",
        ServerConfigs :=
          [{ Name := "r", MatchPatterns := ["dev"],
             InstanceConfig := some ⟨"h", false, false, 0⟩,
             UserDataTemplate := "missing", Replacements := [],
             compiledMatchers := [Regex.lit "dev".toList],
             renderedUserData := "" }],
        UserDataTemplates := [] }),
      c'.renderedUserData = "" := by
  intro c' hc'
  refine dispatch_by_trailing_segment.2 "config.yaml"
    { ListenPort := 8000, ListenAddress := "0.0.0.0",
      ServerConfigs :=
        [{ Name := "r", MatchPatterns := ["dev"],
           InstanceConfig := some ⟨"h", false, false, 0⟩,
           UserDataTemplate := "missing", Replacements := [],
           compiledMatchers := [], renderedUserData := "" }],
      UserDataTemplates := [] } _ (by intro c hc; simp at hc; rw [hc]) (by rfl) c' hc' (by rfl)

theorem compilePatterns_error_iff (ms : List String) (e : String) :
    compilePatterns ms = Except.error e ↔ firstCompileError ms = some e := by
  induction ms with
  | nil => simp [compilePatterns, firstCompileError]
  | cons m rest ih =>
    simp only [compilePatterns, firstCompileError]
    cases hc : compileRegex m with
    | error e' => simp
    | ok re =>
      simp only
      constructor
      · intro h
        cases hr : compilePatterns rest with
        | error e2 =>
          rw [hr] at h
          simp only [Except.map, Except.error.injEq] at h
          subst h
          exact ih.mp hr
        | ok res =>
          rw [hr] at h
          simp [Except.map] at h
      · intro h
        rw [ih.mpr h]
        simp [Except.map]

theorem firstCompileError_isSome_iff (ms : List String) :
    (firstCompileError ms).isSome = true ↔
      ∃ p ∈ ms, ∃ e, compileRegex p = Except.error e := by
  induction ms with
  | nil => simp [firstCompileError]
  | cons m rest ih =>
    simp only [firstCompileError]
    cases hc : compileRegex m with
    | error e => simp [hc]
    | ok re => simp [hc, ih]

theorem processRule_error_iff (t : List (String × List (String × Value)))
    (c : serverConfig) (e : String) :
    processRule t c = Except.error e ↔ specRuleError c = some e := by
  unfold processRule specRuleError serverConfig.loadMatchers
  by_cases hmp : c.MatchPatterns = []
  · simp [hmp]
  · rw [if_neg hmp, if_neg hmp]
    cases hcp : compilePatterns c.MatchPatterns with
    | error e' =>
      rw [(compilePatterns_error_iff _ _).mp hcp]
      simp
    | ok ms =>
      have hfc : firstCompileError c.MatchPatterns = none := by
        cases hf : firstCompileError c.MatchPatterns with
        | none => rfl
        | some x =>
          rw [(compilePatterns_error_iff _ _).mpr hf] at hcp
          exact absurd hcp (by simp)
      rw [hfc]
      simp only
      cases hic : c.InstanceConfig with
      | none => simp
      | some ic =>
        simp only
        unfold instanceConfig.validate
        by_cases hh : ic.Hostname = ""
        · simp [hh, msgInvalidInstanceConfig]
        · rw [if_neg hh, if_neg hh]
          simp only
          by_cases hrt : c.UserDataTemplate = "" ∧ c.Replacements.length > 0
          · rw [if_pos hrt, if_pos hrt]
            simp
          · rw [if_neg hrt, if_neg hrt]
            cases hlt : List.lookup c.UserDataTemplate t with
            | some ud => simp
            | none => simp

theorem processRules_error_iff (t : List (String × List (String × Value))) :
    ∀ (rules : List serverConfig) (e : String),
      processRules t rules = Except.error e ↔ firstRuleError rules = some e := by
  intro rules
  induction rules with
  | nil => intro e; simp [processRules, firstRuleError]
  | cons c rest ih =>
    intro e
    simp only [processRules, firstRuleError]
    cases hpr : processRule t c with
    | error e' =>
      rw [(processRule_error_iff _ _ _).mp hpr]
      simp
    | ok c0 =>
      have hsp : specRuleError c = none := by
        cases hs : specRuleError c with
        | none => rfl
        | some x =>
          rw [(processRule_error_iff t c x).mpr hs] at hpr
          exact absurd hpr (by simp)
      rw [hsp]
      simp only
      cases hrest : processRules t rest with
      | error e' =>
        rw [(ih e').mp hrest] at *
        simp [Except.map, ← ih, hrest]
      | ok res =>
        have : firstRuleError rest = none := by
          cases hf : firstRuleError rest with
          | none => rfl
          | some x => rw [(ih x).mpr hf] at hrest; exact absurd hrest (by simp)
        simp [Except.map, hrest, this]

/-- C6: from a parsed document onward (file reading and YAML
deserialization are external to the engine), `loadConfig` fails
exactly as the spec's ordered fail-fast validation prescribes: the
returned error is the first violation in the order empty rule list →
per rule: pattern list empty / pattern does not compile → instance
config missing / empty hostname → replacements without a template
reference (the merge/serialization step is total in this embedding
and contributes no failure); and a rule has a violation exactly when
one of those per-rule conditions holds. -/
theorem load_validation_order :
    (∀ (path : String) (cfg : config) (e : String),
       loadConfig path cfg = Except.error e ↔ specFirstError path cfg = some e)
  ∧ (∀ c : serverConfig,
       (specRuleError c).isSome = true ↔
         (c.MatchPatterns = [] ∨
          (∃ p ∈ c.MatchPatterns, ∃ e, compileRegex p = Except.error e) ∨
          c.InstanceConfig = none ∨
          (∃ ic, c.InstanceConfig = some ic ∧ ic.Hostname = "") ∨
          (c.UserDataTemplate = "" ∧ c.Replacements.length > 0))) := by
  constructor
  · intro path cfg e
    unfold loadConfig specFirstError
    by_cases hz : cfg.ServerConfigs.length = 0
    · simp [hz]
    · rw [if_neg hz, if_neg hz]
      cases hpr : processRules cfg.UserDataTemplates cfg.ServerConfigs with
      | error e' =>
        rw [(processRules_error_iff _ _ _).mp hpr]
        simp
      | ok rules =>
        have : firstRuleError cfg.ServerConfigs = none := by
          cases hf : firstRuleError cfg.ServerConfigs with
          | none => rfl
          | some x =>
            rw [(processRules_error_iff _ _ x).mpr hf] at hpr
            exact absurd hpr (by simp)
        simp [this]
  · intro c
    unfold specRuleError
    by_cases hmp : c.MatchPatterns = []
    · simp [hmp]
    · rw [if_neg hmp]
      cases hf : firstCompileError c.MatchPatterns with
      | some msg =>
        have := (firstCompileError_isSome_iff c.MatchPatterns).mp (by simp [hf])
        simp only [Option.isSome_some, true_iff]
        exact Or.inr (Or.inl this)
      | none =>
        have hnc : ¬ ∃ p ∈ c.MatchPatterns, ∃ e, compileRegex p = Except.error e := by
          rw [← firstCompileError_isSome_iff, hf]
          simp
        cases hic : c.InstanceConfig with
        | none => simp [hmp, hnc]
        | some ic =>
          simp only
          by_cases hh : ic.Hostname = ""
          · rw [if_pos hh]
            simp only [Option.isSome_some, true_iff]
            exact Or.inr (Or.inr (Or.inr (Or.inl ⟨ic, rfl, hh⟩)))
          · rw [if_neg hh]
            by_cases hrt : c.UserDataTemplate = "" ∧ c.Replacements.length > 0
            · rw [if_pos hrt]
              simp [hrt]
            · rw [if_neg hrt]
              simp only [Option.isSome_none, Bool.false_eq_true, false_iff]
              push_neg
              refine ⟨hmp, fun p hp e he => hnc ⟨p, hp, e, he⟩, by simp, ?_, ?_⟩
              · intro ic' hic'
                cases hic'
                exact hh
              · intro hut
                by_contra hlen
                exact hrt ⟨hut, by omega⟩

/-- Witness for C6: a configuration whose first rule has a
non-compiling pattern and whose second rule has an empty hostname is
rejected with the first rule's matcher error, exactly as the ordered
spec validation prescribes. -/
theorem load_validation_order_witness :
    loadConfig "config.yaml"
      { ListenPort := 0, ListenAddress := "",
        ServerConfigs :=
          [{ Name := "first", MatchPatterns := ["("],
             InstanceConfig := some ⟨"h", false, false, 0⟩,
             UserDataTemplate := "", Replacements := [] },
           { Name := "second", MatchPatterns := ["dev"],
             InstanceConfig := some ⟨"", false, false, 0⟩,
             UserDataTemplate := "", Replacements := [] }],
        UserDataTemplates := [] } =
      Except.error "config \"first\" has invalid matchers: compile pattern \"(\": unsupported pattern" :=
  ((load_validation_order.1 "config.yaml" _ _).mpr (by rfl))

theorem strContains_mid (n hay pre post : String)
    (hdecomp : hay.toList = pre.toList ++ (n.toList ++ post.toList)) :
    strContains n hay = true := by
  unfold strContains
  simp only [List.any_eq_true, List.mem_range]
  refine ⟨pre.toList.length, ?_, ?_⟩
  · have hl : hay.length = hay.toList.length := rfl
    rw [hl, hdecomp]
    simp only [List.length_append]
    omega
  · rw [hdecomp, List.drop_left]
    exact List.isPrefixOf_iff_prefix.mpr (List.prefix_append _ _)

theorem firstRuleError_mem :
    ∀ (rules : List serverConfig) (e : String),
      firstRuleError rules = some e → ∃ c ∈ rules, specRuleError c = some e := by
  intro rules
  induction rules with
  | nil => intro e h; exact absurd h (by simp [firstRuleError])
  | cons c rest ih =>
    intro e h
    simp only [firstRuleError] at h
    cases hs : specRuleError c with
    | some x =>
      rw [hs] at h
      simp only [Option.some.injEq] at h
      exact ⟨c, by simp, by rw [hs, h]⟩
    | none =>
      rw [hs] at h
      obtain ⟨c', hc', he⟩ := ih e h
      exact ⟨c', by simp [hc'], he⟩

theorem specRuleError_message (c : serverConfig) (e : String)
    (h : specRuleError c = some e) :
    strContains c.Name e = true ∨
    e = msgInvalidInstanceConfig ∨ e = msgReplacersNeedTemplate := by
  unfold specRuleError at h
  by_cases hmp : c.MatchPatterns = []
  · rw [if_pos hmp] at h
    simp only [Option.some.injEq] at h
    subst h
    exact Or.inl (strContains_mid c.Name _ "config \""
      ("\" has invalid matchers: " ++ msgNoMatchers)
      (by simp [String.toList, String.data_append, List.append_assoc]))
  · rw [if_neg hmp] at h
    cases hf : firstCompileError c.MatchPatterns with
    | some msg =>
      rw [hf] at h
      simp only [Option.some.injEq] at h
      subst h
      exact Or.inl (strContains_mid c.Name _ "config \""
        ("\" has invalid matchers: " ++ msg)
        (by simp [String.toList, String.data_append, List.append_assoc]))
    | none =>
      rw [hf] at h
      cases hic : c.InstanceConfig with
      | none =>
        rw [hic] at h
        simp only [Option.some.injEq] at h
        subst h
        exact Or.inl (strContains_mid c.Name _ "config \""
          "\" does not have an instanceConfig set"
          (by simp [String.toList, String.data_append, List.append_assoc]))
      | some ic =>
        rw [hic] at h
        simp only at h
        by_cases hh : ic.Hostname = ""
        · rw [if_pos hh] at h
          simp only [Option.some.injEq] at h
          exact Or.inr (Or.inl h.symm)
        · rw [if_neg hh] at h
          by_cases hrt : c.UserDataTemplate = "" ∧ c.Replacements.length > 0
          · rw [if_pos hrt] at h
            simp only [Option.some.injEq] at h
            exact Or.inr (Or.inr h.symm)
          · rw [if_neg hrt] at h
            exact absurd h (by simp)

/-- C9 counterexample: loading a configuration whose only rule is
named `alpha` and has an empty hostname yields the fixed message
`invalid instance config: hostname field must be set`, which does not
contain the offending rule's name. -/
theorem load_error_message_counterexample :
    loadConfig "config.yaml" cfgBadHostname =
      Except.error ("invalid instance config: " ++ "hostname field must be set")
  ∧ strContains "alpha"
      ("invalid instance config: " ++ "hostname field must be set") = false := by
  exact ⟨by rfl, by decide⟩

/-- C9 amended: a validation failure of `load` names the offending
rule in its message for pattern-compilation failures (including an
empty pattern list) and for a missing instance configuration; the
empty-hostname and replacements-without-template failures (and the
empty-rule-list failure) produce fixed messages that do not include
the rule name. -/
theorem load_error_message_names (path : String) (cfg : config) (e : String)
    (h : loadConfig path cfg = Except.error e) :
    (∃ c ∈ cfg.ServerConfigs, strContains c.Name e = true) ∨
    e = msgInvalidInstanceConfig ∨ e = msgReplacersNeedTemplate ∨
    e = "config file \"" ++ path ++ "\" has no serving configurations" := by
  unfold loadConfig at h
  by_cases hz : cfg.ServerConfigs.length = 0
  · rw [if_pos hz] at h
    simp only [Except.error.injEq] at h
    exact Or.inr (Or.inr (Or.inr h.symm))
  · rw [if_neg hz] at h
    cases hpr : processRules cfg.UserDataTemplates cfg.ServerConfigs with
    | ok rules => rw [hpr] at h; exact absurd h (by simp)
    | error e' =>
      rw [hpr] at h
      simp only [Except.error.injEq] at h
      subst h
      have := (processRules_error_iff _ _ _).mp hpr
      obtain ⟨c, hc, he⟩ := firstRuleError_mem _ _ this
      rcases specRuleError_message c e' he with hname | hfix | hfix
      · exact Or.inl ⟨c, hc, hname⟩
      · exact Or.inr (Or.inl hfix)
      · exact Or.inr (Or.inr (Or.inl hfix))

/-- Witness for the amended C9: evaluated on the empty-hostname
configuration, whose error is the fixed hostname message. -/
theorem load_error_message_names_witness :
    (∃ c ∈ cfgBadHostname.ServerConfigs,
       strContains c.Name ("invalid instance config: " ++ "hostname field must be set") = true) ∨
    ("invalid instance config: " ++ "hostname field must be set") = msgInvalidInstanceConfig ∨
    ("invalid instance config: " ++ "hostname field must be set") = msgReplacersNeedTemplate ∨
    ("invalid instance config: " ++ "hostname field must be set") =
      "config file \"" ++ "config.yaml" ++ "\" has no serving configurations" :=
  load_error_message_names "config.yaml" cfgBadHostname _ (by rfl)

/-- C7 (against the code): a reload whose replacement configuration
fails validation does not leave the previous snapshot serving — the
watcher's error branch calls `log.Fatalf`, terminating the whole
process. -/
theorem reload_failure_terminates :
    watcherOnModify "config.yaml" cfgBadHostname = ProcState.terminated := rfl

end NoCloud
